import Mathlib

/-!
# Verification of the `ResourceCache` module

A shallow embedding of the reference-counted resource cache
(`ResourceCache`, in the repository's `Scene` sources, bundled in
`Source/Core/EllipsoidGeometry.js`) together with proofs of the
specification's testable properties.

The embedding follows the source:

* a JavaScript loader object is modelled by `Loader`: an allocation
  identity `id` (two distinct `new` expressions yield distinct ids) and
  its read-only `cacheKey` string;
* `CacheEntry` is the source's `CacheEntry` constructor: a
  `referenceCount` (initialised to 1 by `ResourceCache.load`), the
  `resourceLoader`, and the `keepResident` flag;
* `ResourceCache.cacheEntries`, a plain JavaScript object keyed by
  cache key, is modelled as an association list in insertion order
  (JavaScript object keys are unique, and `clearForSpecs` iterates in
  insertion order);
* the externally observable lifecycle calls — constructing a loader
  (`new BufferLoader(...)`), `resourceLoader.load()` and
  `resourceLoader.destroy()` — are recorded in an event log so that
  "load is invoked exactly once" style properties can be stated;
* a thrown `DeveloperError` is modelled by `Except.error`; every throw
  in the source happens before any mutation, so an error returns no
  state, which matches the JavaScript behaviour.
-/

/-- One externally observable lifecycle call made by the cache:
construction of a loader instance, `load()` on a loader, or
`destroy()` on a loader.  A `destroy` event also records the cache key
the call was routed through (`resourceLoader.cacheKey` in `unload`,
the registry key in `clearForSpecs`). -/
inductive Event where
  | construct (id : Nat)
  | load (id : Nat)
  | destroy (id : Nat) (key : String)
deriving DecidableEq

/-- The `DeveloperError`s thrown by the cache.  `invalidKey` models the
`Check.typeOf.string` contract failure; the other two are the explicit
throws in `ResourceCache.load` and `ResourceCache.unload`. -/
inductive ContractError where
  | invalidKey
  | duplicateKey (key : String)
  | notInCache (key : String)
  | noReferences
deriving DecidableEq

/-- A resource loader as seen by the cache: an object identity and its
read-only `cacheKey` property. -/
structure Loader where
  id : Nat
  cacheKey : String
deriving DecidableEq

/-- The source's `CacheEntry`: `this.referenceCount = 1;
this.resourceLoader = options.resourceLoader;
this.keepResident = defaultValue(options.keepResident, false);`. -/
structure CacheEntry where
  referenceCount : Nat
  resourceLoader : Loader
  keepResident : Bool
deriving DecidableEq

/-- A `Resource` descriptor, reduced to the canonical URL that the key
derivation consumes. -/
structure Resource where
  url : String
deriving DecidableEq

/-- The cache's mutable state: `ResourceCache.cacheEntries` as an
association list in insertion order, the event log of lifecycle calls,
and the next fresh allocation identity for `new` loader objects. -/
structure CacheState where
  cacheEntries : List (String × CacheEntry)
  events : List Event
  nextId : Nat
deriving DecidableEq

/-- The empty cache, `ResourceCache.cacheEntries = {}`. -/
def emptyCache : CacheState := ⟨[], [], 0⟩

/-- Property lookup `ResourceCache.cacheEntries[cacheKey]`. -/
def lookupEntry : List (String × CacheEntry) → String → Option CacheEntry
  | [], _ => none
  | p :: rest, key => if p.1 = key then some p.2 else lookupEntry rest key

/-- In-place mutation of the entry stored at `key` (JavaScript mutates
the entry object; the binding itself is unchanged). -/
def updateEntry : List (String × CacheEntry) → String → CacheEntry → List (String × CacheEntry)
  | [], _, _ => []
  | p :: rest, key, e => if p.1 = key then (p.1, e) :: rest else p :: updateEntry rest key e

/-- `delete ResourceCache.cacheEntries[cacheKey]`. -/
def removeEntry : List (String × CacheEntry) → String → List (String × CacheEntry)
  | [], _ => []
  | p :: rest, key => if p.1 = key then removeEntry rest key else p :: removeEntry rest key

/-- Modelled from the spec: `Check.typeOf.string` lives in
`Core/Check.js`, which is not among the sources; the spec classes a
"non-string/empty key" as a contract violation, so the check rejects
exactly the empty string (the key type is statically `String` here). -/
def checkKey (key : String) : Bool := !key.isEmpty

namespace ResourceCache

/-- `ResourceCache.get`: validates the key, then, if an entry exists,
increments its reference count and returns its loader; otherwise
returns `undefined` (`none`) without mutating anything. -/
def get (cacheKey : String) (s : CacheState) :
    Except ContractError (Option Loader × CacheState) :=
  if !checkKey cacheKey then
    .error .invalidKey
  else
    match lookupEntry s.cacheEntries cacheKey with
    | some cacheEntry =>
        let bumped := { cacheEntry with referenceCount := cacheEntry.referenceCount + 1 }
        .ok (some cacheEntry.resourceLoader,
          { s with cacheEntries := updateEntry s.cacheEntries cacheKey bumped })
    | none => .ok (none, s)

/-- `ResourceCache.load` (the register operation): validates the
loader's key, throws if the key is already present, otherwise inserts
a fresh `CacheEntry` (reference count 1) and invokes the loader's
`load()`. -/
def load (resourceLoader : Loader) (keepResident : Bool) (s : CacheState) :
    Except ContractError CacheState :=
  let cacheKey := resourceLoader.cacheKey
  if !checkKey cacheKey then
    .error .invalidKey
  else if (lookupEntry s.cacheEntries cacheKey).isSome then
    .error (.duplicateKey cacheKey)
  else
    .ok { s with
      cacheEntries := s.cacheEntries ++
        [(cacheKey, ⟨1, resourceLoader, keepResident⟩)],
      events := s.events ++ [.load resourceLoader.id] }

/-- `ResourceCache.unload`: looks up the entry under the *argument's*
`cacheKey`, throws if absent or if the count is already 0, then
decrements; when the count reaches 0 on a non-`keepResident` entry it
calls `resourceLoader.destroy()` — on the argument, not on the stored
loader — and deletes the key. -/
def unload (resourceLoader : Loader) (s : CacheState) :
    Except ContractError CacheState :=
  let cacheKey := resourceLoader.cacheKey
  match lookupEntry s.cacheEntries cacheKey with
  | none => .error (.notInCache cacheKey)
  | some cacheEntry =>
    if cacheEntry.referenceCount = 0 then
      .error .noReferences
    else
      let rc := cacheEntry.referenceCount - 1
      if rc = 0 ∧ cacheEntry.keepResident = false then
        .ok { s with
          cacheEntries := removeEntry s.cacheEntries cacheKey,
          events := s.events ++ [.destroy resourceLoader.id cacheKey] }
      else
        let decremented := { cacheEntry with referenceCount := rc }
        .ok { s with
          cacheEntries := updateEntry s.cacheEntries cacheKey decremented }

/-- `ResourceCache.clearForSpecs`: iterates over every registered
entry in insertion order, calls `destroy()` on the *stored* loader and
deletes the key, leaving the registry empty. -/
def clearForSpecs (s : CacheState) : CacheState :=
  { s with
    cacheEntries := [],
    events := s.events ++
      s.cacheEntries.map (fun p => Event.destroy p.2.resourceLoader.id p.1) }

end ResourceCache

/-- Modelled from the spec: `ResourceCacheKey.getExternalBufferCacheKey`
lives in `Scene/ResourceCacheKey.js`, which is not among the sources;
the spec specifies key derivation as a pure, deterministic function of
the descriptor producing a canonical string identity. -/
def getExternalBufferCacheKey (resource : Resource) : String :=
  "external-buffer:" ++ resource.url

/-- `ResourceCache.loadExternalBuffer`: derives the key, calls `get`;
on a hit returns the existing loader, otherwise constructs a fresh
`BufferLoader` (recorded as a `construct` event and a fresh allocation
identity) and registers it via `ResourceCache.load`. -/
def loadExternalBuffer (resource : Resource) (keepResident : Bool) (s : CacheState) :
    Except ContractError (Loader × CacheState) :=
  let cacheKey := getExternalBufferCacheKey resource
  match ResourceCache.get cacheKey s with
  | .error e => .error e
  | .ok (some bufferLoader, s₁) => .ok (bufferLoader, s₁)
  | .ok (none, s₁) =>
    let bufferLoader : Loader := ⟨s₁.nextId, cacheKey⟩
    let s₂ := { s₁ with
      nextId := s₁.nextId + 1,
      events := s₁.events ++ [.construct bufferLoader.id] }
    match ResourceCache.load bufferLoader keepResident s₂ with
    | .error e => .error e
    | .ok s₃ => .ok (bufferLoader, s₃)

/-- `n` successive calls to `ResourceCache.loadExternalBuffer` with the
same descriptor (and `keepResident = false`), collecting the returned
loaders. -/
def loadExternalBufferN (resource : Resource) :
    Nat → CacheState → Except ContractError (List Loader × CacheState)
  | 0, s => .ok ([], s)
  | n + 1, s =>
    match loadExternalBuffer resource false s with
    | .error e => .error e
    | .ok (l, s₁) =>
      match loadExternalBufferN resource n s₁ with
      | .error e => .error e
      | .ok (ls, s₂) => .ok (l :: ls, s₂)

/-- `n` successive calls to `ResourceCache.unload` with the same
loader. -/
def unloadN (l : Loader) : Nat → CacheState → Except ContractError CacheState
  | 0, s => .ok s
  | n + 1, s =>
    match ResourceCache.unload l s with
    | .error e => .error e
    | .ok s₁ => unloadN l n s₁

/-- A consumer-visible cache operation for invariants quantifying over
arbitrary call sequences. -/
inductive CacheOp where
  | getOp (key : String)
  | unloadOp (l : Loader)

/-- Runs one operation; a thrown `DeveloperError` leaves the state
unchanged (every throw in the source precedes any mutation). -/
def applyOp (s : CacheState) : CacheOp → CacheState
  | .getOp key =>
    match ResourceCache.get key s with
    | .ok (_, s₁) => s₁
    | .error _ => s
  | .unloadOp l =>
    match ResourceCache.unload l s with
    | .ok s₁ => s₁
    | .error _ => s

/-- Runs a sequence of `get`/`unload` operations. -/
def applyOps (s : CacheState) (ops : List CacheOp) : CacheState :=
  ops.foldl applyOp s

/-- Number of `destroy(id)` calls routed through cache key `key` in the
log. -/
def countDestroyEvents (id : Nat) (key : String) (events : List Event) : Nat :=
  (events.filter (fun ev => ev = Event.destroy id key)).length

/-- Number of `destroy` calls on loader identity `id` (any key). -/
def countDestroyById (id : Nat) (events : List Event) : Nat :=
  (events.filter (fun ev =>
    match ev with
    | .destroy i _ => i = id
    | _ => false)).length

/-- Number of `load()` calls on loader identity `id` in the log. -/
def countLoadEvents (id : Nat) (events : List Event) : Nat :=
  (events.filter (fun ev => ev = Event.load id)).length

/-- Number of `destroy` calls routed through cache key `key` (any
loader identity). -/
def countDestroyAtKey (key : String) (events : List Event) : Nat :=
  (events.filter (fun ev =>
    match ev with
    | .destroy _ k => k = key
    | _ => false)).length

/-! ## Association-list lemmas -/

theorem lookupEntry_update_self {l : List (String × CacheEntry)} {key : String}
    {e : CacheEntry} (e' : CacheEntry) (h : lookupEntry l key = some e) :
    lookupEntry (updateEntry l key e') key = some e' := by
  induction l with
  | nil => simp [lookupEntry] at h
  | cons p rest ih =>
    by_cases hp : p.1 = key
    · simp [lookupEntry, updateEntry, hp]
    · simp only [lookupEntry, updateEntry, hp, if_false] at h ⊢
      exact ih h

theorem lookupEntry_update_ne {l : List (String × CacheEntry)} {key k' : String}
    {e' : CacheEntry} (h : k' ≠ key) :
    lookupEntry (updateEntry l key e') k' = lookupEntry l k' := by
  induction l with
  | nil => simp [lookupEntry, updateEntry]
  | cons p rest ih =>
    by_cases hp : p.1 = key
    · simp [lookupEntry, updateEntry, hp, Ne.symm h]
    · by_cases hk : p.1 = k'
      · simp [lookupEntry, updateEntry, hp, hk, h]
      · simp only [lookupEntry, updateEntry, hp, hk, if_false]
        exact ih

theorem lookupEntry_remove_self (l : List (String × CacheEntry)) (key : String) :
    lookupEntry (removeEntry l key) key = none := by
  induction l with
  | nil => simp [lookupEntry, removeEntry]
  | cons p rest ih =>
    by_cases hp : p.1 = key
    · simpa [removeEntry, hp] using ih
    · simpa [lookupEntry, removeEntry, hp] using ih

theorem lookupEntry_remove_ne {l : List (String × CacheEntry)} {key k' : String}
    (h : k' ≠ key) :
    lookupEntry (removeEntry l key) k' = lookupEntry l k' := by
  induction l with
  | nil => simp [lookupEntry, removeEntry]
  | cons p rest ih =>
    by_cases hp : p.1 = key
    · simpa [lookupEntry, removeEntry, hp, Ne.symm h] using ih
    · by_cases hk : p.1 = k'
      · simp [lookupEntry, removeEntry, hp, hk, h]
      · simpa [lookupEntry, removeEntry, hp, hk] using ih

theorem lookupEntry_append_of_none {l : List (String × CacheEntry)} {k' : String}
    (m : List (String × CacheEntry)) (h : lookupEntry l k' = none) :
    lookupEntry (l ++ m) k' = lookupEntry m k' := by
  induction l with
  | nil => simp
  | cons p rest ih =>
    by_cases hp : p.1 = k'
    · simp [lookupEntry, hp] at h
    · simp only [lookupEntry, hp, if_false, List.cons_append] at h ⊢
      exact ih h

theorem lookupEntry_append_of_some {l : List (String × CacheEntry)} {k' : String}
    {e : CacheEntry} (m : List (String × CacheEntry)) (h : lookupEntry l k' = some e) :
    lookupEntry (l ++ m) k' = some e := by
  induction l with
  | nil => simp [lookupEntry] at h
  | cons p rest ih =>
    by_cases hp : p.1 = k'
    · simp only [lookupEntry, hp, if_true] at h
      simp [lookupEntry, hp, h]
    · simp only [lookupEntry, hp, if_false, List.cons_append] at h ⊢
      exact ih h

/-! ## Event-count lemmas -/

theorem countLoadEvents_append_load_ne {i j : Nat} (evs : List Event) (h : j ≠ i) :
    countLoadEvents i (evs ++ [Event.load j]) = countLoadEvents i evs := by
  simp [countLoadEvents, List.filter_append, h]

theorem countDestroyById_append_destroy_ne {i j : Nat} (evs : List Event)
    (key : String) (h : j ≠ i) :
    countDestroyById i (evs ++ [Event.destroy j key]) = countDestroyById i evs := by
  simp [countDestroyById, List.filter_append, h]

theorem countDestroyAtKey_append_destroy_ne {key k : String} (i : Nat)
    (evs : List Event) (h : k ≠ key) :
    countDestroyAtKey key (evs ++ [Event.destroy i k]) = countDestroyAtKey key evs := by
  simp [countDestroyAtKey, List.filter_append, h]

/-! ## Characterisation of the cache operations -/

theorem getExternalBufferCacheKey_not_empty (resource : Resource) :
    (getExternalBufferCacheKey resource).isEmpty = false := by
  rw [Bool.eq_false_iff]
  intro h
  rw [String.isEmpty_iff] at h
  have h2 := congrArg String.length h
  simp [getExternalBufferCacheKey, String.length_append] at h2
  exact absurd h2.1 (by decide)

theorem get_hit {s : CacheState} {key : String} {e : CacheEntry}
    (hk : key.isEmpty = false) (h : lookupEntry s.cacheEntries key = some e) :
    ResourceCache.get key s =
      .ok (some e.resourceLoader,
        { s with cacheEntries :=
            updateEntry s.cacheEntries key ⟨e.referenceCount + 1, e.resourceLoader, e.keepResident⟩ }) := by
  simp [ResourceCache.get, checkKey, hk, h]

theorem get_miss {s : CacheState} {key : String}
    (hk : key.isEmpty = false) (h : lookupEntry s.cacheEntries key = none) :
    ResourceCache.get key s = .ok (none, s) := by
  simp [ResourceCache.get, checkKey, hk, h]

theorem load_success {s : CacheState} {l : Loader} (kr : Bool)
    (hk : l.cacheKey.isEmpty = false)
    (h : lookupEntry s.cacheEntries l.cacheKey = none) :
    ResourceCache.load l kr s = .ok { s with
      cacheEntries := s.cacheEntries ++ [(l.cacheKey, ⟨1, l, kr⟩)],
      events := s.events ++ [Event.load l.id] } := by
  simp [ResourceCache.load, checkKey, hk, h]

theorem load_duplicate {s : CacheState} {l : Loader} {e : CacheEntry} (kr : Bool)
    (hk : l.cacheKey.isEmpty = false)
    (h : lookupEntry s.cacheEntries l.cacheKey = some e) :
    ResourceCache.load l kr s = .error (.duplicateKey l.cacheKey) := by
  simp [ResourceCache.load, checkKey, hk, h]

theorem unload_absent {s : CacheState} {l : Loader}
    (h : lookupEntry s.cacheEntries l.cacheKey = none) :
    ResourceCache.unload l s = .error (.notInCache l.cacheKey) := by
  simp [ResourceCache.unload, h]

theorem unload_no_references {s : CacheState} {l : Loader} {e : CacheEntry}
    (h : lookupEntry s.cacheEntries l.cacheKey = some e)
    (h0 : e.referenceCount = 0) :
    ResourceCache.unload l s = .error .noReferences := by
  simp [ResourceCache.unload, h, h0]

theorem unload_last_destroys {s : CacheState} {l : Loader} {e : CacheEntry}
    (h : lookupEntry s.cacheEntries l.cacheKey = some e)
    (h1 : e.referenceCount = 1) (hkr : e.keepResident = false) :
    ResourceCache.unload l s = .ok { s with
      cacheEntries := removeEntry s.cacheEntries l.cacheKey,
      events := s.events ++ [Event.destroy l.id l.cacheKey] } := by
  simp [ResourceCache.unload, h, h1, hkr]

theorem unload_decrements {s : CacheState} {l : Loader} {e : CacheEntry}
    (h : lookupEntry s.cacheEntries l.cacheKey = some e)
    (h0 : e.referenceCount ≠ 0)
    (hne : ¬(e.referenceCount - 1 = 0 ∧ e.keepResident = false)) :
    ResourceCache.unload l s = .ok { s with
      cacheEntries :=
        updateEntry s.cacheEntries l.cacheKey ⟨e.referenceCount - 1, e.resourceLoader, e.keepResident⟩ } := by
  simp [ResourceCache.unload, h, h0, hne]

theorem loadExternalBuffer_miss {resource : Resource} {s : CacheState} (kr : Bool)
    (habs : lookupEntry s.cacheEntries (getExternalBufferCacheKey resource) = none) :
    loadExternalBuffer resource kr s =
      .ok (⟨s.nextId, getExternalBufferCacheKey resource⟩,
        { cacheEntries := s.cacheEntries ++
            [(getExternalBufferCacheKey resource,
              ⟨1, ⟨s.nextId, getExternalBufferCacheKey resource⟩, kr⟩)],
          events := s.events ++ [Event.construct s.nextId, Event.load s.nextId],
          nextId := s.nextId + 1 }) := by
  have hget := get_miss (getExternalBufferCacheKey_not_empty resource) habs
  have hload := load_success (l := ⟨s.nextId, getExternalBufferCacheKey resource⟩)
    (s := { s with
      nextId := s.nextId + 1,
      events := s.events ++ [Event.construct s.nextId] })
    kr (getExternalBufferCacheKey_not_empty resource) habs
  simp [loadExternalBuffer, hget, hload]

theorem loadExternalBuffer_hit {resource : Resource} {s : CacheState} {e : CacheEntry}
    (kr : Bool)
    (h : lookupEntry s.cacheEntries (getExternalBufferCacheKey resource) = some e) :
    loadExternalBuffer resource kr s =
      .ok (e.resourceLoader,
        { s with cacheEntries :=
            updateEntry s.cacheEntries (getExternalBufferCacheKey resource) ⟨e.referenceCount + 1, e.resourceLoader, e.keepResident⟩ }) := by
  have hget := get_hit (getExternalBufferCacheKey_not_empty resource) h
  simp [loadExternalBuffer, hget]

/-! ## Lemmas about repeated calls -/

theorem loadExternalBufferN_hit (resource : Resource) :
    ∀ (n : Nat) (s : CacheState) (e : CacheEntry),
    lookupEntry s.cacheEntries (getExternalBufferCacheKey resource) = some e →
    ∃ s₁, loadExternalBufferN resource n s = .ok (List.replicate n e.resourceLoader, s₁) ∧
      s₁.events = s.events ∧ s₁.nextId = s.nextId ∧
      lookupEntry s₁.cacheEntries (getExternalBufferCacheKey resource) =
        some ⟨e.referenceCount + n, e.resourceLoader, e.keepResident⟩ := by
  intro n
  induction n with
  | zero =>
    intro s e h
    exact ⟨s, rfl, rfl, rfl, by simpa using h⟩
  | succ n ih =>
    intro s e h
    have hstep := loadExternalBuffer_hit (s := s) (e := e) false h
    have hlook : lookupEntry
        (updateEntry s.cacheEntries (getExternalBufferCacheKey resource)
          ⟨e.referenceCount + 1, e.resourceLoader, e.keepResident⟩)
        (getExternalBufferCacheKey resource) =
        some ⟨e.referenceCount + 1, e.resourceLoader, e.keepResident⟩ :=
      lookupEntry_update_self _ h
    obtain ⟨s₁, hrun, hev, hid, hfin⟩ := ih
      { s with cacheEntries :=
          updateEntry s.cacheEntries (getExternalBufferCacheKey resource) ⟨e.referenceCount + 1, e.resourceLoader, e.keepResident⟩ }
      ⟨e.referenceCount + 1, e.resourceLoader, e.keepResident⟩ hlook
    refine ⟨s₁, ?_, by simpa using hev, by simpa using hid, ?_⟩
    · simp [loadExternalBufferN, hstep, hrun, List.replicate_succ]
    · simpa [Nat.add_assoc, Nat.add_comm 1 n] using hfin

theorem unloadN_partial (l : Loader) :
    ∀ (k : Nat) (s : CacheState) (e : CacheEntry),
    lookupEntry s.cacheEntries l.cacheKey = some e →
    k < e.referenceCount →
    ∃ s₁, unloadN l k s = .ok s₁ ∧ s₁.events = s.events ∧ s₁.nextId = s.nextId ∧
      lookupEntry s₁.cacheEntries l.cacheKey =
        some ⟨e.referenceCount - k, e.resourceLoader, e.keepResident⟩ := by
  intro k
  induction k with
  | zero =>
    intro s e h _
    exact ⟨s, rfl, rfl, rfl, by simpa using h⟩
  | succ k ih =>
    intro s e h hk
    have h0 : e.referenceCount ≠ 0 := by omega
    have hne : ¬(e.referenceCount - 1 = 0 ∧ e.keepResident = false) := by
      intro hc
      omega
    have hstep := unload_decrements h h0 hne
    have hlook : lookupEntry
        (updateEntry s.cacheEntries l.cacheKey
          ⟨e.referenceCount - 1, e.resourceLoader, e.keepResident⟩) l.cacheKey =
        some ⟨e.referenceCount - 1, e.resourceLoader, e.keepResident⟩ :=
      lookupEntry_update_self _ h
    obtain ⟨s₁, hrun, hev, hid, hfin⟩ := ih
      { s with cacheEntries :=
          updateEntry s.cacheEntries l.cacheKey ⟨e.referenceCount - 1, e.resourceLoader, e.keepResident⟩ }
      ⟨e.referenceCount - 1, e.resourceLoader, e.keepResident⟩ hlook (by simp; omega)
    refine ⟨s₁, ?_, by simpa using hev, by simpa using hid, ?_⟩
    · simp [unloadN, hstep, hrun]
    · have : e.referenceCount - 1 - k = e.referenceCount - (k + 1) := by omega
      simpa [this] using hfin

theorem unloadN_split (l : Loader) :
    ∀ (a b : Nat) (s : CacheState),
    unloadN l (a + b) s =
      match unloadN l a s with
      | .error e => .error e
      | .ok s₁ => unloadN l b s₁ := by
  intro a
  induction a with
  | zero => intro b s; simp [unloadN]
  | succ a ih =>
    intro b s
    have hadd : a + 1 + b = (a + b) + 1 := by omega
    rw [hadd]
    simp only [unloadN]
    cases ResourceCache.unload l s with
    | error e => rfl
    | ok s₁ => exact ih b s₁

/-! ## Invariant lemmas for `keepResident` entries -/

theorem applyOp_keepResident {s : CacheState} {key : String} {m : Loader} {n : Nat}
    (h : lookupEntry s.cacheEntries key = some ⟨n, m, true⟩) (op : CacheOp) :
    (∃ n₁, lookupEntry (applyOp s op).cacheEntries key = some ⟨n₁, m, true⟩) ∧
    countDestroyAtKey key (applyOp s op).events = countDestroyAtKey key s.events := by
  cases op with
  | getOp k =>
    by_cases hk : k.isEmpty = false
    · cases hlook : lookupEntry s.cacheEntries k with
      | none =>
        simp [applyOp, get_miss hk hlook]
        exact ⟨n, h⟩
      | some e =>
        simp only [applyOp, get_hit hk hlook]
        by_cases hkey : k = key
        · subst hkey
          rw [h] at hlook
          cases hlook
          exact ⟨⟨n + 1, lookupEntry_update_self _ h⟩, trivial⟩
        · have hne : key ≠ k := fun hc => hkey hc.symm
          exact ⟨⟨n, by rw [lookupEntry_update_ne hne]; exact h⟩, trivial⟩
    · have hk2 : k.isEmpty = true := by
        cases hke : k.isEmpty
        · exact absurd hke hk
        · rfl
      have : ResourceCache.get k s = .error .invalidKey := by
        simp [ResourceCache.get, checkKey, hk2]
      simp [applyOp, this]
      exact ⟨n, h⟩
  | unloadOp l =>
    cases hlook : lookupEntry s.cacheEntries l.cacheKey with
    | none =>
      simp [applyOp, unload_absent hlook]
      exact ⟨n, h⟩
    | some e =>
      by_cases h0 : e.referenceCount = 0
      · simp [applyOp, unload_no_references hlook h0]
        exact ⟨n, h⟩
      · by_cases hcond : e.referenceCount - 1 = 0 ∧ e.keepResident = false
        · have hkey : l.cacheKey ≠ key := by
            intro hc
            rw [hc, h] at hlook
            cases hlook
            exact absurd hcond.2 (by simp)
          have hstep : ResourceCache.unload l s = .ok { s with
              cacheEntries := removeEntry s.cacheEntries l.cacheKey,
              events := s.events ++ [Event.destroy l.id l.cacheKey] } := by
            have h1 : e.referenceCount = 1 := by omega
            exact unload_last_destroys hlook h1 hcond.2
          simp only [applyOp, hstep]
          constructor
          · exact ⟨n, by rw [lookupEntry_remove_ne (Ne.symm hkey)]; exact h⟩
          · exact countDestroyAtKey_append_destroy_ne l.id s.events hkey
        · have hstep := unload_decrements hlook h0 hcond
          simp only [applyOp, hstep]
          by_cases hkey : l.cacheKey = key
          · subst hkey
            rw [h] at hlook
            cases hlook
            exact ⟨⟨n - 1, lookupEntry_update_self _ h⟩, trivial⟩
          · have hne : key ≠ l.cacheKey := fun hc => hkey hc.symm
            exact ⟨⟨n, by rw [lookupEntry_update_ne hne]; exact h⟩, trivial⟩

theorem applyOps_keepResident {key : String} {m : Loader} :
    ∀ (ops : List CacheOp) (s : CacheState) (n : Nat),
    lookupEntry s.cacheEntries key = some ⟨n, m, true⟩ →
    (∃ n₁, lookupEntry (applyOps s ops).cacheEntries key = some ⟨n₁, m, true⟩) ∧
    countDestroyAtKey key (applyOps s ops).events = countDestroyAtKey key s.events := by
  intro ops
  induction ops with
  | nil =>
    intro s n h
    exact ⟨⟨n, h⟩, rfl⟩
  | cons op rest ih =>
    intro s n h
    obtain ⟨⟨n₁, h₁⟩, hc₁⟩ := applyOp_keepResident h op
    obtain ⟨hex, hc₂⟩ := ih (applyOp s op) n₁ h₁
    refine ⟨by simpa [applyOps] using hex, ?_⟩
    calc countDestroyAtKey key (applyOps s (op :: rest)).events
        = countDestroyAtKey key (applyOps (applyOp s op) rest).events := by
          simp [applyOps]
      _ = countDestroyAtKey key (applyOp s op).events := hc₂
      _ = countDestroyAtKey key s.events := hc₁

/-! ## Counting lemmas for `clearForSpecs` -/

theorem countDestroy_map_of_not_mem (i : Nat) :
    ∀ (l : List (String × CacheEntry)) (key : String),
    key ∉ l.map Prod.fst →
    countDestroyEvents i key
      (l.map (fun p => Event.destroy p.2.resourceLoader.id p.1)) = 0 := by
  intro l
  induction l with
  | nil => intro key _; rfl
  | cons p rest ih =>
    intro key hmem
    simp only [List.map_cons, List.mem_cons, not_or] at hmem
    have hne : p.1 ≠ key := fun hc => hmem.1 hc.symm
    simp [countDestroyEvents, List.filter_cons, hne]
    have := ih key hmem.2
    simpa [countDestroyEvents] using this

theorem countDestroy_map_of_lookup :
    ∀ (l : List (String × CacheEntry)) (key : String) (e : CacheEntry),
    (l.map Prod.fst).Nodup →
    lookupEntry l key = some e →
    countDestroyEvents e.resourceLoader.id key
      (l.map (fun p => Event.destroy p.2.resourceLoader.id p.1)) = 1 := by
  intro l
  induction l with
  | nil => intro key e _ h; simp [lookupEntry] at h
  | cons p rest ih =>
    intro key e hnd h
    simp only [List.map_cons, List.nodup_cons] at hnd
    by_cases hp : p.1 = key
    · subst hp
      have he : e = p.2 := by
        simp [lookupEntry] at h
        exact h.symm
      subst he
      have hrest : countDestroyEvents p.2.resourceLoader.id p.1
          (rest.map (fun q => Event.destroy q.2.resourceLoader.id q.1)) = 0 :=
        countDestroy_map_of_not_mem p.2.resourceLoader.id rest p.1 hnd.1
      simp only [List.map_cons, countDestroyEvents, List.filter_cons] at hrest ⊢
      simp [hrest]
    · have hne : p.1 ≠ key := hp
      simp only [lookupEntry, hp, if_false] at h
      have := ih key e hnd.2 h
      simp [countDestroyEvents, List.filter_cons, hne]
      simpa [countDestroyEvents] using this

/-! ## The claims -/

/-- Claim C1: for every N ≥ 1, N calls to the typed `loadExternalBuffer`
constructor with descriptors deriving to the same cache key construct
exactly one loader instance and invoke its `load()` exactly once — the
N calls append exactly one `construct` and one `load` event, both from
the first call; after the N-th call the entry's reference count equals
N, and every call returns the same loader instance. -/
theorem loadExternalBufferN_single_loader (resource : Resource) (n : Nat)
    (hn : 1 ≤ n) (s : CacheState)
    (habs : lookupEntry s.cacheEntries (getExternalBufferCacheKey resource) = none) :
    ∃ (l : Loader) (s₁ : CacheState),
      loadExternalBufferN resource n s = .ok (List.replicate n l, s₁) ∧
      s₁.events = s.events ++ [Event.construct l.id, Event.load l.id] ∧
      lookupEntry s₁.cacheEntries (getExternalBufferCacheKey resource) =
        some ⟨n, l, false⟩ := by
  obtain ⟨m, rfl⟩ : ∃ m, n = m + 1 := ⟨n - 1, by omega⟩
  have hfirst := loadExternalBuffer_miss false habs
  have hlook3 : lookupEntry
      (s.cacheEntries ++ [(getExternalBufferCacheKey resource,
        ⟨1, ⟨s.nextId, getExternalBufferCacheKey resource⟩, false⟩)])
      (getExternalBufferCacheKey resource) =
      some ⟨1, ⟨s.nextId, getExternalBufferCacheKey resource⟩, false⟩ := by
    rw [lookupEntry_append_of_none _ habs]
    simp [lookupEntry]
  obtain ⟨s₁, hrun, hev, hid, hfin⟩ := loadExternalBufferN_hit resource m
    ⟨s.cacheEntries ++ [(getExternalBufferCacheKey resource,
        ⟨1, ⟨s.nextId, getExternalBufferCacheKey resource⟩, false⟩)],
     s.events ++ [Event.construct s.nextId, Event.load s.nextId],
     s.nextId + 1⟩
    ⟨1, ⟨s.nextId, getExternalBufferCacheKey resource⟩, false⟩ hlook3
  refine ⟨⟨s.nextId, getExternalBufferCacheKey resource⟩, s₁, ?_, ?_, ?_⟩
  · simp only [loadExternalBufferN, hfirst, hrun, List.replicate_succ]
  · simpa using hev
  · simpa [Nat.add_comm 1 m] using hfin

/-- Claim C2: for a registered entry holding loader `l` with reference
count N ≥ 1 and `keepResident = false`, calling `unload` N times with
`l` reduces the count to 0, invokes `l.destroy()` exactly once — on the
N-th call and no earlier — and removes the key from the registry, so a
subsequent `get` of that key returns absent. -/
theorem unloadN_reaches_zero_and_destroys (l : Loader) (n : Nat) (hn : 1 ≤ n)
    (s : CacheState) (hk : l.cacheKey.isEmpty = false)
    (h : lookupEntry s.cacheEntries l.cacheKey = some ⟨n, l, false⟩) :
    ∃ s₁ s₂,
      unloadN l (n - 1) s = .ok s₁ ∧
      s₁.events = s.events ∧
      lookupEntry s₁.cacheEntries l.cacheKey = some ⟨1, l, false⟩ ∧
      unloadN l n s = .ok s₂ ∧
      s₂.events = s.events ++ [Event.destroy l.id l.cacheKey] ∧
      lookupEntry s₂.cacheEntries l.cacheKey = none ∧
      ResourceCache.get l.cacheKey s₂ = .ok (none, s₂) := by
  obtain ⟨m, rfl⟩ : ∃ m, n = m + 1 := ⟨n - 1, by omega⟩
  obtain ⟨s₁, hrun, hev, hid, hfin⟩ :=
    unloadN_partial l m s ⟨m + 1, l, false⟩ h (by simp)
  have hfin1 : lookupEntry s₁.cacheEntries l.cacheKey = some ⟨1, l, false⟩ := by
    simpa using hfin
  have hlast := unload_last_destroys hfin1 rfl rfl
  have hrem : lookupEntry (removeEntry s₁.cacheEntries l.cacheKey) l.cacheKey = none :=
    lookupEntry_remove_self _ _
  refine ⟨s₁, { s₁ with
      cacheEntries := removeEntry s₁.cacheEntries l.cacheKey,
      events := s₁.events ++ [Event.destroy l.id l.cacheKey] },
    by simpa using hrun, hev, hfin1, ?_, by simp [hev], hrem, ?_⟩
  · rw [unloadN_split l m 1 s, hrun]
    simp [unloadN, hlast]
  · exact get_miss hk hrem

/-- Claim C3: if a key is already present in the registry (here:
because a first loader was just registered for it), registering a
second, different loader instance carrying the same key throws the
duplicate-key `DeveloperError`; the registry retains the first entry
unchanged (reference count 1, first loader, original residency flag)
and the second loader's `load()` is never invoked. -/
theorem duplicate_register_rejected (s s₁ : CacheState) (l₁ l₂ : Loader)
    (kr₁ kr₂ : Bool) (hkey : l₂.cacheKey = l₁.cacheKey) (hid : l₂.id ≠ l₁.id)
    (h₁ : ResourceCache.load l₁ kr₁ s = .ok s₁) :
    ResourceCache.load l₂ kr₂ s₁ = .error (.duplicateKey l₁.cacheKey) ∧
    lookupEntry s₁.cacheEntries l₁.cacheKey = some ⟨1, l₁, kr₁⟩ ∧
    countLoadEvents l₂.id s₁.events = countLoadEvents l₂.id s.events := by
  by_cases hk : l₁.cacheKey.isEmpty = true
  · have : ResourceCache.load l₁ kr₁ s = .error .invalidKey := by
      simp [ResourceCache.load, checkKey, hk]
    rw [this] at h₁
    exact absurd h₁ (by simp)
  · have hk1 : l₁.cacheKey.isEmpty = false := by
      cases hke : l₁.cacheKey.isEmpty
      · rfl
      · exact absurd hke hk
    cases hlook : lookupEntry s.cacheEntries l₁.cacheKey with
    | some e =>
      rw [load_duplicate kr₁ hk1 hlook] at h₁
      exact absurd h₁ (by simp)
    | none =>
      rw [load_success kr₁ hk1 hlook] at h₁
      injection h₁ with h₁
      subst h₁
      have hfound : lookupEntry
          (s.cacheEntries ++ [(l₁.cacheKey, ⟨1, l₁, kr₁⟩)]) l₁.cacheKey =
          some ⟨1, l₁, kr₁⟩ := by
        rw [lookupEntry_append_of_none _ hlook]
        simp [lookupEntry]
      refine ⟨?_, hfound, ?_⟩
      · have hfound2 : lookupEntry
            (s.cacheEntries ++ [(l₁.cacheKey, ⟨1, l₁, kr₁⟩)]) l₂.cacheKey =
            some ⟨1, l₁, kr₁⟩ := by
          rw [hkey]
          exact hfound
        have := load_duplicate (s := { s with
            cacheEntries := s.cacheEntries ++ [(l₁.cacheKey, ⟨1, l₁, kr₁⟩)],
            events := s.events ++ [Event.load l₁.id] }) kr₂
          (by rw [hkey]; exact hk1) hfound2
        rw [this, hkey]
      · exact countLoadEvents_append_load_ne s.events (Ne.symm hid)

/-- Claim C4: calling `unload` with a loader whose key is absent from
the registry, or whose entry has reference count 0, throws the
corresponding `DeveloperError` and performs no mutation — the error is
raised before any state change, so no registry entry, count or
residency flag is touched and no `destroy()` is invoked. -/
theorem unload_contract_violations (s : CacheState) (l : Loader) :
    (lookupEntry s.cacheEntries l.cacheKey = none →
      ResourceCache.unload l s = .error (.notInCache l.cacheKey)) ∧
    (∀ e, lookupEntry s.cacheEntries l.cacheKey = some e → e.referenceCount = 0 →
      ResourceCache.unload l s = .error .noReferences) :=
  ⟨fun h => unload_absent h, fun _ h h0 => unload_no_references h h0⟩

/-- Claim C5: an entry registered with `keepResident = true` survives
every sequence of `get`/`unload` calls: its key stays mapped to an
entry with the same loader and `keepResident = true` (even when the
count decays to 0), and no `destroy()` is ever routed through its key;
only the bulk `clearForSpecs` removes it. -/
theorem keepResident_never_evicted (s : CacheState) (key : String) (m : Loader)
    (n : Nat) (h : lookupEntry s.cacheEntries key = some ⟨n, m, true⟩)
    (ops : List CacheOp) :
    (∃ n₁, lookupEntry (applyOps s ops).cacheEntries key = some ⟨n₁, m, true⟩) ∧
    countDestroyAtKey key (applyOps s ops).events = countDestroyAtKey key s.events ∧
    lookupEntry (ResourceCache.clearForSpecs (applyOps s ops)).cacheEntries key =
      none := by
  obtain ⟨hex, hc⟩ := applyOps_keepResident ops s n h
  exact ⟨hex, hc, rfl⟩

/-- Claim C6: both `get` and the register path require a non-empty
cache key — `get` with the empty string, and registering a loader whose
`cacheKey` is the empty string, raise the contract-violation error at
the call site rather than proceeding.  (Spec-modelled: the check
itself, `Check.typeOf.string`, lives in `Core/Check.js`, outside the
sources.) -/
theorem empty_key_rejected (s : CacheState) (l : Loader) (kr : Bool)
    (h : l.cacheKey = "") :
    ResourceCache.get "" s = .error .invalidKey ∧
    ResourceCache.load l kr s = .error .invalidKey := by
  have he : "".isEmpty = true := rfl
  constructor
  · simp [ResourceCache.get, checkKey, he]
  · simp [ResourceCache.load, checkKey, h, he]

/-- Claim C7: the bulk `clearForSpecs`, applied to any registry state
(with the registry's keys unique, as JavaScript object keys are),
invokes `destroy()` exactly once on every cached loader — including
entries with positive reference count and entries with
`keepResident = true`, which the quantifier covers — and leaves the
registry empty. -/
theorem clearForSpecs_destroys_everything (s : CacheState)
    (hnd : (s.cacheEntries.map Prod.fst).Nodup) :
    (ResourceCache.clearForSpecs s).cacheEntries = [] ∧
    ∀ key e, lookupEntry s.cacheEntries key = some e →
      countDestroyEvents e.resourceLoader.id key
          (ResourceCache.clearForSpecs s).events =
        countDestroyEvents e.resourceLoader.id key s.events + 1 := by
  refine ⟨rfl, fun key e h => ?_⟩
  have h1 := countDestroy_map_of_lookup s.cacheEntries key e hnd h
  show countDestroyEvents e.resourceLoader.id key
      (s.events ++ s.cacheEntries.map (fun p => Event.destroy p.2.resourceLoader.id p.1)) =
      countDestroyEvents e.resourceLoader.id key s.events + 1
  simp only [countDestroyEvents, List.filter_append, List.length_append] at h1 ⊢
  omega

/-- Claim C8: for every non-empty key K not present in the registry,
`get K` returns absent (`none`) and causes no mutation — the returned
state is exactly the input state, so every entry's reference count and
residency flag are as before the call. -/
theorem get_absent_returns_undefined (key : String) (s : CacheState)
    (hk : key.isEmpty = false)
    (habs : lookupEntry s.cacheEntries key = none) :
    ResourceCache.get key s = .ok (none, s) :=
  get_miss hk habs

/-- Claim C9: `unload` invokes `destroy()` on the loader passed as its
argument, not on the loader stored in the cache entry: when `l.cacheKey`
maps to an entry with reference count 1, stored loader `m` and
`keepResident = false`, `unload l` records `destroy` for `l`'s identity
and removes the key — so when `l` is a different object than `m`, the
registered loader `m` is removed without ever being destroyed. -/
theorem unload_destroys_argument_loader (s : CacheState) (l m : Loader)
    (h : lookupEntry s.cacheEntries l.cacheKey = some ⟨1, m, false⟩) :
    ∃ s₁, ResourceCache.unload l s = .ok s₁ ∧
      s₁.events = s.events ++ [Event.destroy l.id l.cacheKey] ∧
      lookupEntry s₁.cacheEntries l.cacheKey = none ∧
      (l.id ≠ m.id →
        countDestroyById m.id s₁.events = countDestroyById m.id s.events) := by
  have hstep := unload_last_destroys h rfl rfl
  refine ⟨_, hstep, rfl, lookupEntry_remove_self _ _, fun hne => ?_⟩
  exact countDestroyById_append_destroy_ne s.events l.cacheKey hne

/-- Claim C10: a `keepResident` entry whose reference count has been
decremented to 0 remains retrievable — after the last `unload` (which
retains the entry at count 0 without destroying it), a `get` with its
key returns the stored loader and sets the count back to 1, so pinned
resources can be re-acquired after all consumers have released them. -/
theorem keepResident_reacquirable (s : CacheState) (l m : Loader)
    (hk : l.cacheKey.isEmpty = false)
    (h : lookupEntry s.cacheEntries l.cacheKey = some ⟨1, m, true⟩) :
    ∃ s₁ s₂,
      ResourceCache.unload l s = .ok s₁ ∧
      s₁.events = s.events ∧
      lookupEntry s₁.cacheEntries l.cacheKey = some ⟨0, m, true⟩ ∧
      ResourceCache.get l.cacheKey s₁ = .ok (some m, s₂) ∧
      lookupEntry s₂.cacheEntries l.cacheKey = some ⟨1, m, true⟩ := by
  have hstep := unload_decrements (l := l) (e := ⟨1, m, true⟩) h (by simp) (by simp)
  have h₁ : lookupEntry
      (updateEntry s.cacheEntries l.cacheKey ⟨1 - 1, m, true⟩) l.cacheKey =
      some ⟨1 - 1, m, true⟩ := lookupEntry_update_self _ h
  have hget := get_hit (s := { s with
    cacheEntries := updateEntry s.cacheEntries l.cacheKey ⟨1 - 1, m, true⟩ }) hk h₁
  have h₂ := lookupEntry_update_self
    (l := updateEntry s.cacheEntries l.cacheKey ⟨1 - 1, m, true⟩)
    ⟨1 - 1 + 1, m, true⟩ h₁
  exact ⟨_, _, hstep, rfl, by simpa using h₁, by simpa using hget, by simpa using h₂⟩

/-! ## Concrete witnesses -/

/-- Witness for C1: three calls for the same external buffer from the
empty cache. -/
theorem loadExternalBufferN_single_loader_witness :
    ∃ (l : Loader) (s₁ : CacheState),
      loadExternalBufferN ⟨"model.bin"⟩ 3 emptyCache = .ok (List.replicate 3 l, s₁) ∧
      s₁.events = emptyCache.events ++ [Event.construct l.id, Event.load l.id] ∧
      lookupEntry s₁.cacheEntries (getExternalBufferCacheKey ⟨"model.bin"⟩) =
        some ⟨3, l, false⟩ :=
  loadExternalBufferN_single_loader ⟨"model.bin"⟩ 3 (by decide) emptyCache rfl

/-- Witness for C2: an entry with reference count 2 unloaded twice. -/
theorem unloadN_reaches_zero_and_destroys_witness :
    ∃ s₁ s₂,
      unloadN ⟨4, "buffer"⟩ (2 - 1)
        ⟨[("buffer", ⟨2, ⟨4, "buffer"⟩, false⟩)], [], 5⟩ = .ok s₁ ∧
      s₁.events = [] ∧
      lookupEntry s₁.cacheEntries "buffer" = some ⟨1, ⟨4, "buffer"⟩, false⟩ ∧
      unloadN ⟨4, "buffer"⟩ 2
        ⟨[("buffer", ⟨2, ⟨4, "buffer"⟩, false⟩)], [], 5⟩ = .ok s₂ ∧
      s₂.events = [] ++ [Event.destroy 4 "buffer"] ∧
      lookupEntry s₂.cacheEntries "buffer" = none ∧
      ResourceCache.get "buffer" s₂ = .ok (none, s₂) :=
  unloadN_reaches_zero_and_destroys ⟨4, "buffer"⟩ 2 (by decide)
    ⟨[("buffer", ⟨2, ⟨4, "buffer"⟩, false⟩)], [], 5⟩ (by decide) rfl

/-- Witness for C3: a second loader object with the key of an already
registered first one. -/
theorem duplicate_register_rejected_witness :
    ResourceCache.load ⟨1, "k"⟩ false
      ⟨[("k", ⟨1, ⟨0, "k"⟩, false⟩)], [Event.load 0], 0⟩ =
      .error (.duplicateKey "k") ∧
    lookupEntry [("k", ⟨1, ⟨0, "k"⟩, false⟩)] "k" = some ⟨1, ⟨0, "k"⟩, false⟩ ∧
    countLoadEvents 1 [Event.load 0] = countLoadEvents 1 [] :=
  duplicate_register_rejected emptyCache
    ⟨[("k", ⟨1, ⟨0, "k"⟩, false⟩)], [Event.load 0], 0⟩
    ⟨0, "k"⟩ ⟨1, "k"⟩ false false rfl (by decide) rfl

/-- Witness for C4: an absent key, and a pinned entry already at
reference count 0. -/
theorem unload_contract_violations_witness :
    ResourceCache.unload ⟨0, "k"⟩ emptyCache = .error (.notInCache "k") ∧
    ResourceCache.unload ⟨1, "p"⟩ ⟨[("p", ⟨0, ⟨1, "p"⟩, true⟩)], [], 2⟩ =
      .error .noReferences :=
  ⟨(unload_contract_violations emptyCache ⟨0, "k"⟩).1 rfl,
   (unload_contract_violations ⟨[("p", ⟨0, ⟨1, "p"⟩, true⟩)], [], 2⟩ ⟨1, "p"⟩).2
     ⟨0, ⟨1, "p"⟩, true⟩ rfl rfl⟩

/-- Witness for C5: a pinned entry with count 2, unloaded twice (down
to 0) and re-acquired once. -/
theorem keepResident_never_evicted_witness :
    (∃ n₁, lookupEntry (applyOps ⟨[("s", ⟨2, ⟨9, "s"⟩, true⟩)], [], 10⟩
        [CacheOp.unloadOp ⟨9, "s"⟩, CacheOp.unloadOp ⟨9, "s"⟩,
         CacheOp.getOp "s"]).cacheEntries "s" = some ⟨n₁, ⟨9, "s"⟩, true⟩) ∧
    countDestroyAtKey "s" (applyOps ⟨[("s", ⟨2, ⟨9, "s"⟩, true⟩)], [], 10⟩
        [CacheOp.unloadOp ⟨9, "s"⟩, CacheOp.unloadOp ⟨9, "s"⟩,
         CacheOp.getOp "s"]).events = countDestroyAtKey "s" [] ∧
    lookupEntry (ResourceCache.clearForSpecs
        (applyOps ⟨[("s", ⟨2, ⟨9, "s"⟩, true⟩)], [], 10⟩
          [CacheOp.unloadOp ⟨9, "s"⟩, CacheOp.unloadOp ⟨9, "s"⟩,
           CacheOp.getOp "s"])).cacheEntries "s" = none :=
  keepResident_never_evicted ⟨[("s", ⟨2, ⟨9, "s"⟩, true⟩)], [], 10⟩ "s" ⟨9, "s"⟩ 2
    rfl [CacheOp.unloadOp ⟨9, "s"⟩, CacheOp.unloadOp ⟨9, "s"⟩, CacheOp.getOp "s"]

/-- Witness for C6: the empty cache key. -/
theorem empty_key_rejected_witness :
    ResourceCache.get "" emptyCache = .error .invalidKey ∧
    ResourceCache.load ⟨0, ""⟩ false emptyCache = .error .invalidKey :=
  empty_key_rejected emptyCache ⟨0, ""⟩ false rfl

/-- Witness for C7: a registry holding a pinned entry with positive
count and an ordinary entry; clearing destroys both. -/
theorem clearForSpecs_destroys_everything_witness :
    (ResourceCache.clearForSpecs
      ⟨[("a", ⟨2, ⟨0, "a"⟩, true⟩), ("b", ⟨1, ⟨1, "b"⟩, false⟩)], [], 2⟩).cacheEntries
      = [] ∧
    countDestroyEvents 0 "a" (ResourceCache.clearForSpecs
      ⟨[("a", ⟨2, ⟨0, "a"⟩, true⟩), ("b", ⟨1, ⟨1, "b"⟩, false⟩)], [], 2⟩).events =
      countDestroyEvents 0 "a" [] + 1 :=
  ⟨(clearForSpecs_destroys_everything
      ⟨[("a", ⟨2, ⟨0, "a"⟩, true⟩), ("b", ⟨1, ⟨1, "b"⟩, false⟩)], [], 2⟩
      (by decide)).1,
   (clearForSpecs_destroys_everything
      ⟨[("a", ⟨2, ⟨0, "a"⟩, true⟩), ("b", ⟨1, ⟨1, "b"⟩, false⟩)], [], 2⟩
      (by decide)).2 "a" ⟨2, ⟨0, "a"⟩, true⟩ rfl⟩

/-- Witness for C8: a key never registered. -/
theorem get_absent_returns_undefined_witness :
    ResourceCache.get "missing" emptyCache = .ok (none, emptyCache) :=
  get_absent_returns_undefined "missing" emptyCache (by decide) rfl

/-- Witness for C9: the argument loader (identity 5) differs from the
stored loader (identity 2). -/
theorem unload_destroys_argument_loader_witness :
    ∃ s₁, ResourceCache.unload ⟨5, "k"⟩
        ⟨[("k", ⟨1, ⟨2, "k"⟩, false⟩)], [], 3⟩ = .ok s₁ ∧
      s₁.events = [] ++ [Event.destroy 5 "k"] ∧
      lookupEntry s₁.cacheEntries "k" = none ∧
      ((5 : Nat) ≠ 2 → countDestroyById 2 s₁.events = countDestroyById 2 []) :=
  unload_destroys_argument_loader ⟨[("k", ⟨1, ⟨2, "k"⟩, false⟩)], [], 3⟩
    ⟨5, "k"⟩ ⟨2, "k"⟩ rfl

/-- Witness for C10: a pinned entry released to count 0 and
re-acquired. -/
theorem keepResident_reacquirable_witness :
    ∃ s₁ s₂,
      ResourceCache.unload ⟨2, "k"⟩ ⟨[("k", ⟨1, ⟨2, "k"⟩, true⟩)], [], 3⟩ = .ok s₁ ∧
      s₁.events = [] ∧
      lookupEntry s₁.cacheEntries "k" = some ⟨0, ⟨2, "k"⟩, true⟩ ∧
      ResourceCache.get "k" s₁ = .ok (some ⟨2, "k"⟩, s₂) ∧
      lookupEntry s₂.cacheEntries "k" = some ⟨1, ⟨2, "k"⟩, true⟩ :=
  keepResident_reacquirable ⟨[("k", ⟨1, ⟨2, "k"⟩, true⟩)], [], 3⟩
    ⟨2, "k"⟩ ⟨2, "k"⟩ (by decide) rfl
